import Mathlib

/-!
Verification of the crab-ts library: a shallow embedding of its Option
class, its CrabIterator adapter chain, and its doubly linked list, with
theorems settling the specified properties.

Conventions of the embedding:
* Host values relevant to the Option class are modelled by the inductive
  type `JSVal`, which distinguishes `null`, `undefined`, `NaN`, primitive
  values, `Error` instances, `Option` instances and `Result` instances.
* A fallible host operation (one containing a `throw`) is modelled as
  returning `Except String`.
* A mutable object method is modelled as a function from the receiver
  state to a pair of result and updated state.
* Host loops with no structural termination argument are modelled with an
  explicit fuel parameter: a `none` outcome for every fuel value means the
  loop never finishes.
* The heap of linked-list nodes and list objects is modelled as an arena
  (`Mem`): nodes and lists are addressed by allocation index, mirroring
  the reference semantics of the host.
-/

namespace CrabTs

/-- Universe of host values as seen by the Option class in
src/traits/option.ts: the class stores one private `value` slot and
discriminates only on `null`/`undefined` (for presence), on Error
instances (for the spec-modelled Result discriminant), structurally on
Result instances (in `transpose`), and on two-element arrays (in
`unzip`). `vpair` models a two-element array — the one array shape any
embedded operation tells apart (`unzip` tests `Array.isArray` together
with `length === 2`); an array of any other length takes the same branch
as every other non-null non-Result object in every embedded operation.
Symbols are not modelled: the only operations that distinguish them are
the ordering comparisons, which delegate to the host relational
operators. -/
inductive JSVal where
  | vnull
  | vundef
  | vnan
  | vbool (b : Bool)
  | vnum (n : Int)
  | vstr (s : String)
  | verror (msg : String)
  | vopt (value : JSVal)
  | vres (value : JSVal) (error : JSVal)
  | vpair (fst snd : JSVal)
deriving DecidableEq, Repr

/-- The `value === null || typeof value === "undefined"` test that the
source repeats in its guards. -/
def nullish (v : JSVal) : Bool :=
  match v with
  | JSVal.vnull => true
  | JSVal.vundef => true
  | _ => false

/-- An instance of the Option class of src/traits/option.ts: a wrapper
around one `value` slot. `None()` is `new Option(null)`. -/
structure OptionJS where
  value : JSVal
deriving DecidableEq, Repr

/-- `None()` factory: `new Option(null)`. -/
def NoneJS : OptionJS := ⟨JSVal.vnull⟩

/-- `Option.isSome`: false exactly when the stored value is `null` or
`undefined`. -/
def OptionJS.isSome (o : OptionJS) : Bool :=
  match o.value with
  | JSVal.vnull => false
  | JSVal.vundef => false
  | _ => true

/-- `Option.isNone`: negation of `isSome`. -/
def OptionJS.isNone (o : OptionJS) : Bool :=
  !o.isSome

/-- `Some(value)` factory: throws on `null`/`undefined`, otherwise wraps
the value. -/
def SomeF (v : JSVal) : Except String OptionJS :=
  if v = JSVal.vnull ∨ v = JSVal.vundef then
    Except.error ("Tried to create Some() with a null or undefined value.")
  else
    Except.ok ⟨v⟩

/-- `Option.expect(msg)`: the value when present, otherwise throws with
the caller-supplied message. -/
def OptionJS.expect (o : OptionJS) (msg : String) : Except String JSVal :=
  if o.isSome then Except.ok o.value else Except.error msg

/-- `Option.unwrap()`: the value when present, otherwise throws. -/
def OptionJS.unwrap (o : OptionJS) : Except String JSVal :=
  if o.isSome then
    Except.ok o.value
  else
    Except.error ("called `Option.unwrap()` on a `None` value")

/-- `Option.unwrapOr(defaultValue)`. -/
def OptionJS.unwrapOr (o : OptionJS) (d : JSVal) : JSVal :=
  if o.isSome then o.value else d

/-- `Option.map(f)`: applies `f` when present; a `null`/`undefined`
result of `f` degrades to `None()`, and otherwise the result is rewrapped
through the `Some` factory (whose throwing branch the guard has just
excluded). -/
def OptionJS.map (o : OptionJS) (f : JSVal → JSVal) :
    Except String OptionJS :=
  if o.isSome then
    let v := f o.value
    if v = JSVal.vnull ∨ v = JSVal.vundef then Except.ok NoneJS
    else SomeF v
  else
    Except.ok NoneJS

/-- `Option.andThen(f)`. -/
def OptionJS.andThen (o : OptionJS) (f : JSVal → OptionJS) : OptionJS :=
  if o.isSome then f o.value else NoneJS

/-- `Option.filter(predicate)`. -/
def OptionJS.filter (o : OptionJS) (p : JSVal → Bool) : OptionJS :=
  if o.isSome then (if p o.value then o else NoneJS) else NoneJS

/-- `Option.or(optb)`. -/
def OptionJS.orOp (o : OptionJS) (optb : OptionJS) : OptionJS :=
  if o.isSome then o else optb

/-- `Option.xor(optb)`. -/
def OptionJS.xorOp (o : OptionJS) (optb : OptionJS) : OptionJS :=
  if o.isSome && optb.isSome then NoneJS
  else if o.isSome then o
  else if optb.isSome then optb
  else NoneJS

/-- `Option.take()`: hands the wrapped value to the `Some` factory
(guarded by `isSome`, so the factory cannot throw) and leaves `null` in
the slot (result, updated receiver). -/
def OptionJS.take (o : OptionJS) : Except String (OptionJS × OptionJS) :=
  if o.isSome then
    match SomeF o.value with
    | Except.ok s => Except.ok (s, ⟨JSVal.vnull⟩)
    | Except.error e => Except.error e
  else
    Except.ok (NoneJS, o)

/-- `Option.replace(newValue)`: installs the new value and returns the
old one — rewrapped through the `Some` factory when the guard shows it
non-nullish — as an option (result, updated receiver). -/
def OptionJS.replace (o : OptionJS) (v : JSVal) :
    Except String (OptionJS × OptionJS) :=
  if o.value = JSVal.vnull ∨ o.value = JSVal.vundef then
    Except.ok (NoneJS, ⟨v⟩)
  else
    match SomeF o.value with
    | Except.ok s => Except.ok (s, ⟨v⟩)
    | Except.error e => Except.error e

/-- `Option.zip(other)`: when both sides are present, wraps the pair of
values — an array, never nullish, so the `Some` factory succeeds. -/
def OptionJS.zip (o : OptionJS) (other : OptionJS) :
    Except String OptionJS :=
  if o.isSome && other.isSome then
    SomeF (JSVal.vpair o.value other.value)
  else
    Except.ok NoneJS

/-- `Option.unzip()`: on a present two-element array it rebuilds the two
components through the `Some` factory with no nullish guard — the one
unguarded factory call of the class — and otherwise returns a pair of
`None()`. -/
def OptionJS.unzip (o : OptionJS) : Except String (OptionJS × OptionJS) :=
  if o.isSome then
    match o.value with
    | JSVal.vpair a b =>
      match SomeF a with
      | Except.error e => Except.error e
      | Except.ok oa =>
        match SomeF b with
        | Except.error e => Except.error e
        | Except.ok ob => Except.ok (oa, ob)
    | _ => Except.ok (NoneJS, NoneJS)
  else
    Except.ok (NoneJS, NoneJS)

/-- The receivers on which `unzip` reaches a throwing factory call: a
two-element array one of whose components is `null` or `undefined`. -/
def pairNullish (v : JSVal) : Bool :=
  match v with
  | JSVal.vpair a b => nullish a || nullish b
  | _ => false

/-- Structural probe used by `Option.transpose`: the stored value is an
object carrying `map`, `isOk` and `isErr`, which among the modelled
values holds exactly of Result instances. -/
def isResultLike (v : JSVal) : Bool :=
  match v with
  | JSVal.vres _ _ => true
  | _ => false

/-- Modelled from the spec: `Result.isOk` of the traits Result class
(the file traits/result.ts is absent from the sources; only its callers
are present). Per the spec, success is inferred from the value slot not
being null, undefined, or an Error instance. -/
def resIsOk (value : JSVal) : Bool :=
  match value with
  | JSVal.vnull => false
  | JSVal.vundef => false
  | JSVal.verror _ => false
  | _ => true

/-- Modelled from the spec: `Result.map(f)` of the traits Result class:
applies `f` to the value slot of a success, leaves a failure untouched. -/
def resMap (value error : JSVal) (f : JSVal → JSVal) : JSVal :=
  if resIsOk value then JSVal.vres (f value) error else JSVal.vres value error

/-- Modelled from the spec: the `Ok(value)` Result factory (success with
a `null` error slot). -/
def OkF (v : JSVal) : JSVal :=
  JSVal.vres v JSVal.vnull

/-- `Option.transpose()`: on a present Result it swaps the layers, on a
present non-Result it throws, and on an absent receiver it returns
`Ok(None())`. -/
def OptionJS.transpose (o : OptionJS) : Except String JSVal :=
  if o.isSome then
    match o.value with
    | JSVal.vres v e =>
      if resIsOk v then
        Except.ok (resMap v e (fun x => JSVal.vopt x))
      else
        Except.ok (JSVal.vres v e)
    | _ => Except.error ("Value is not a Result")
  else
    Except.ok (OkF (JSVal.vopt JSVal.vnull))

/-- Discriminates the two outcomes of a fallible operation. -/
def exIsOk {ε α : Type} : Except ε α → Bool
  | Except.ok _ => true
  | Except.error _ => false

/-!
The CrabIterator protocol of src (the `traits/iterator` module, whose
abstract base is `CrabIterator` with its adapter classes). An iterator
object is modelled by a state type `σ` and a pure step function: calling
`next()` on the object maps its current state to the returned option and
the updated state. Items are modelled by a Lean type `α`, with Lean
`Option α` standing for the `Option<Item>` return of `next` (the items in
every claim are non-null host values, so the null-degradation of the host
Option wrapper cannot fire on them).
-/

/-- An iterator over items of type `α` with internal state `σ`: `next`
performs one pull, returning the yielded option and the mutated state. -/
structure IterSpec (σ : Type) (α : Type) where
  next : σ → Option α × σ

/-- A canonical array-backed source iterator (the test suites build such
sources over arrays): yields the list elements in order, then `none`. -/
def listIter {α : Type} : IterSpec (List α) α :=
  ⟨fun s =>
    match s with
    | [] => (none, [])
    | x :: xs => (some x, xs)⟩

/-- The source iterator over host numbers, used for concrete runs. -/
def listIterI : IterSpec (List Int) Int := listIter

/-- The `while (item.isSome())` loop inside `CrabIterator.fold`: the loop
body applies `f` to the accumulator and the unwrapped item but never
pulls the iterator again, so `item` is loop-invariant. The fuel counts
permitted loop iterations; `none` means the fuel ran out before the loop
exited. -/
def foldLoop {α β : Type} (f : β → α → β) : Nat → β → Option α → Option β
  | 0, _, _ => none
  | _ + 1, accum, none => some accum
  | fuel + 1, accum, some x => foldLoop f fuel (f accum x) (some x)

/-- `CrabIterator.fold(init, f)`: pulls `next()` once, then runs the
`while` loop. Returns the accumulator and the post-call iterator state,
or `none` when the loop exceeds the fuel. -/
def crabFold {σ α β : Type} (it : IterSpec σ α) (s : σ) (init : β)
    (f : β → α → β) (fuel : Nat) : Option (β × σ) :=
  let p := it.next s
  (foldLoop f fuel init p.1).map (fun b => (b, p.2))

/-- `CrabIterator.count()`: `fold(0, (count, _) => count + 1)`. -/
def crabCount {σ α : Type} (it : IterSpec σ α) (s : σ) (fuel : Nat) :
    Option (Nat × σ) :=
  crabFold it s 0 (fun count _ => count + 1) fuel

/-- The joint state of a `Chain` adapter: its two sub-iterators. -/
structure ChainState (σ₁ σ₂ : Type) where
  s1 : σ₁
  s2 : σ₂
deriving DecidableEq, Repr

/-- `Chain.next()`: `this.iter1.next().or(this.iter2.next())` — the host
evaluates the `or` argument eagerly, so both sub-iterators are pulled on
every call, and the `or` keeps the first result when it is present. -/
def chainNext {σ₁ σ₂ α : Type} (i1 : IterSpec σ₁ α) (i2 : IterSpec σ₂ α)
    (c : ChainState σ₁ σ₂) : Option α × ChainState σ₁ σ₂ :=
  let p1 := i1.next c.s1
  let p2 := i2.next c.s2
  (p1.1.or p2.1, ⟨p1.2, p2.2⟩)

/-- The state of a `Zip` adapter after construction: the two sub-iterator
states as the constructor left them, and the eagerly computed `len`. -/
structure ZipState (σ₁ σ₂ : Type) where
  s1 : σ₁
  s2 : σ₂
  len : Nat
deriving DecidableEq, Repr

/-- The `Zip` constructor: stores both iterators and computes
`Math.min(iter1.count(), iter2.count())`, consuming both through
`count()`. `none` means a `count()` call exceeded the fuel. -/
def zipNew {σ₁ σ₂ α β : Type} (i1 : IterSpec σ₁ α) (i2 : IterSpec σ₂ β)
    (s1 : σ₁) (s2 : σ₂) (fuel : Nat) : Option (ZipState σ₁ σ₂) :=
  match crabCount i1 s1 fuel with
  | none => none
  | some (c1, s1post) =>
    match crabCount i2 s2 fuel with
    | none => none
    | some (c2, s2post) => some ⟨s1post, s2post, min c1 c2⟩

/-- The state of a `Scan` adapter: the upstream state and the external
accumulator. The host class assigns the unwrapped output of `f` back
into the accumulator slot, so accumulator and output share one type. -/
structure ScanState (σ τ : Type) where
  s : σ
  state : τ
deriving DecidableEq, Repr

/-- `Scan.next()`: pulls the upstream once; on an upstream `none` or an
`f` result of `none` it returns `none` without recording any flag, and
on a present `f` result it stores that output as the new accumulator and
yields it. -/
def scanNext {σ α τ : Type} (it : IterSpec σ α) (f : τ → α → Option τ)
    (c : ScanState σ τ) : Option τ × ScanState σ τ :=
  let p := it.next c.s
  match p.1 with
  | none => (none, ⟨p.2, c.state⟩)
  | some x =>
    match f c.state x with
    | none => (none, ⟨p.2, c.state⟩)
    | some b => (some b, ⟨p.2, b⟩)

/-- The scan closure of the concrete run for the Scan claim: rejects the
item `1` and passes every other item through. -/
def scanF : Int → Int → Option Int :=
  fun _st x => if x = 1 then none else some x

/-!
The doubly linked list of src/doubly-linked-list.ts. Nodes and list
objects live on the host heap and are aliased by reference, so the
embedding uses an arena `Mem`: nodes and lists are addressed by their
allocation index, field mutation replaces the arena entry, and the node
`next`/`prev` slots and the list `head`/`tail` slots hold node indices
(`none` standing for the host `null`). List lengths and positional
indices are host numbers, modelled as `Int`. Elements are values of an
arbitrary type `α`.
-/

/-- One heap node: `next`/`prev` references and the element. -/
structure NodeRec (α : Type) where
  next : Option Nat
  prev : Option Nat
  element : α
deriving DecidableEq, Repr

/-- The field block of a `DoublyLinkedList` object. -/
structure ListRec where
  head : Option Nat
  tail : Option Nat
  length : Int
deriving DecidableEq, Repr

/-- The arena of allocated nodes and list objects. -/
structure Mem (α : Type) where
  nodes : Nat → Option (NodeRec α)
  nodesSize : Nat
  lists : Nat → Option ListRec
  listsSize : Nat

/-- Point update of an arena map. -/
def upd {β : Type} (f : Nat → Option β) (i : Nat) (v : Option β) :
    Nat → Option β :=
  fun j => if j = i then v else f j

/-- The empty heap. -/
def emptyMem (α : Type) : Mem α :=
  ⟨fun _ => none, 0, fun _ => none, 0⟩

/-- Mutates the fields of the node at index `i` (no-op on an absent
index, which a faithful run never produces). -/
def modifyNode {α : Type} (m : Mem α) (i : Nat) (f : NodeRec α → NodeRec α) :
    Mem α :=
  match m.nodes i with
  | none => m
  | some n => { m with nodes := upd m.nodes i (some (f n)) }

/-- Mutates the fields of the list object at index `l`. -/
def modifyList {α : Type} (m : Mem α) (l : Nat) (f : ListRec → ListRec) :
    Mem α :=
  match m.lists l with
  | none => m
  | some r => { m with lists := upd m.lists l (some (f r)) }

/-- `new Node(element)`: allocates a node with null links; returns its
index and the grown heap. -/
def allocNode {α : Type} (m : Mem α) (x : α) : Nat × Mem α :=
  (m.nodesSize,
    { m with
      nodes := upd m.nodes m.nodesSize (some ⟨none, none, x⟩),
      nodesSize := m.nodesSize + 1 })

/-- `new DoublyLinkedList()`: allocates an empty list object; returns its
index and the grown heap. -/
def newList {α : Type} (m : Mem α) : Nat × Mem α :=
  (m.listsSize,
    { m with
      lists := upd m.lists m.listsSize (some ⟨none, none, 0⟩),
      listsSize := m.listsSize + 1 })

/-- Observation helper: the `length` field of list `l` (0 on an absent
index). -/
def lengthOf {α : Type} (m : Mem α) (l : Nat) : Int :=
  match m.lists l with
  | some r => r.length
  | none => 0

/-- Observation helper: the `head` field of list `l`. -/
def headOf {α : Type} (m : Mem α) (l : Nat) : Option Nat :=
  match m.lists l with
  | some r => r.head
  | none => none

/-- Observation helper: the `tail` field of list `l`. -/
def tailOf {α : Type} (m : Mem α) (l : Nat) : Option Nat :=
  match m.lists l with
  | some r => r.tail
  | none => none

/-- The chain of node indices reached from a node reference by following
`next` pointers, cut off by the fuel (chains of a faithful run are
finite and any fuel at least the node count is enough). -/
def chainFrom {α : Type} (m : Mem α) : Nat → Option Nat → List Nat
  | 0, _ => []
  | _ + 1, none => []
  | fuel + 1, some i =>
    i ::
      chainFrom m fuel
        (match m.nodes i with
        | some n => n.next
        | none => none)

/-- The elements stored along a chain of node indices. -/
def elemsAlong {α : Type} (m : Mem α) (c : List Nat) : List α :=
  c.filterMap (fun i => (m.nodes i).map NodeRec.element)

/-- `pushFrontNode(list, node)`: links the node before the current head,
fixing `tail` on an empty list and the old head backlink otherwise. -/
def pushFrontNode {α : Type} (m : Mem α) (l : Nat) (nid : Nat) : Mem α :=
  match m.lists l with
  | none => m
  | some r =>
    let m1 := modifyNode m nid (fun n => { n with next := r.head, prev := none })
    let m2 :=
      match r.head with
      | none => modifyList m1 l (fun s => { s with tail := some nid })
      | some h => modifyNode m1 h (fun n => { n with prev := some nid })
    let m3 := modifyList m2 l (fun s => { s with head := some nid })
    modifyList m3 l (fun s => { s with length := s.length + 1 })

/-- `DoublyLinkedList.pushFront(elt)`. -/
def pushFront {α : Type} (m : Mem α) (l : Nat) (x : α) : Mem α :=
  let p := allocNode m x
  pushFrontNode p.2 l p.1

/-- `popFrontNode(list)`: unlinks and returns the head node. -/
def popFrontNode {α : Type} (m : Mem α) (l : Nat) :
    Option (NodeRec α) × Mem α :=
  match m.lists l with
  | none => (none, m)
  | some r =>
    match r.head with
    | none => (none, m)
    | some h =>
      match m.nodes h with
      | none => (none, m)
      | some node =>
        let m1 := modifyList m l (fun s => { s with head := node.next })
        let m2 :=
          match node.next with
          | none => modifyList m1 l (fun s => { s with tail := none })
          | some h2 => modifyNode m1 h2 (fun n => { n with prev := none })
        let m3 := modifyList m2 l (fun s => { s with length := s.length - 1 })
        (some node, m3)

/-- `DoublyLinkedList.popFront()`. -/
def popFront {α : Type} (m : Mem α) (l : Nat) : Option α × Mem α :=
  let p := popFrontNode m l
  (p.1.map NodeRec.element, p.2)

/-- `pushBackNode(list, node)`: links the node after the current tail,
fixing `head` on an empty list and the old tail forward link otherwise. -/
def pushBackNode {α : Type} (m : Mem α) (l : Nat) (nid : Nat) : Mem α :=
  match m.lists l with
  | none => m
  | some r =>
    let m1 := modifyNode m nid (fun n => { n with next := none, prev := r.tail })
    let m2 :=
      match r.tail with
      | none => modifyList m1 l (fun s => { s with head := some nid })
      | some t => modifyNode m1 t (fun n => { n with next := some nid })
    let m3 := modifyList m2 l (fun s => { s with tail := some nid })
    modifyList m3 l (fun s => { s with length := s.length + 1 })

/-- `DoublyLinkedList.pushBack(elt)`. -/
def pushBack {α : Type} (m : Mem α) (l : Nat) (x : α) : Mem α :=
  let p := allocNode m x
  pushBackNode p.2 l p.1

/-- `popBackNode(list)`: unlinks and returns the tail node. -/
def popBackNode {α : Type} (m : Mem α) (l : Nat) :
    Option (NodeRec α) × Mem α :=
  match m.lists l with
  | none => (none, m)
  | some r =>
    match r.tail with
    | none => (none, m)
    | some t =>
      match m.nodes t with
      | none => (none, m)
      | some node =>
        let m1 := modifyList m l (fun s => { s with tail := node.prev })
        let m2 :=
          match node.prev with
          | none => modifyList m1 l (fun s => { s with head := none })
          | some p => modifyNode m1 p (fun n => { n with next := none })
        let m3 := modifyList m2 l (fun s => { s with length := s.length - 1 })
        (some node, m3)

/-- `DoublyLinkedList.popBack()`. -/
def popBack {α : Type} (m : Mem α) (l : Nat) : Option α × Mem α :=
  let p := popBackNode m l
  (p.1.map NodeRec.element, p.2)

/-- `unlinkNode(list, node)`: splices the node out of the chain, fixing
`head`/`tail` at the ends, and decrements the length. -/
def unlinkNode {α : Type} (m : Mem α) (l : Nat) (i : Nat) : Mem α :=
  match m.nodes i with
  | none => m
  | some node =>
    let m1 :=
      match node.prev with
      | some p => modifyNode m p (fun n => { n with next := node.next })
      | none => modifyList m l (fun r => { r with head := node.next })
    let m2 :=
      match node.next with
      | some nx => modifyNode m1 nx (fun n => { n with prev := node.prev })
      | none => modifyList m1 l (fun r => { r with tail := node.prev })
    modifyList m2 l (fun r => { r with length := r.length - 1 })

/-- The field block of an `Iter` object: an independent copy of the
list head, tail and length, taken at construction. -/
structure IterRec where
  head : Option Nat
  tail : Option Nat
  length : Int
deriving DecidableEq, Repr

/-- `new Iter(list)`. -/
def iterOfList (r : ListRec) : IterRec :=
  ⟨r.head, r.tail, r.length⟩

/-- `Iter.next()` state change: guarded by the copied length, advances
`head` along the node chain. -/
def iterNext {α : Type} (m : Mem α) (it : IterRec) : IterRec :=
  if it.length = 0 then it
  else
    match it.head with
    | none => it
    | some h =>
      match m.nodes h with
      | none => it
      | some node => { it with length := it.length - 1, head := node.next }

/-- `Iter.nextBack()` state change: retreats `tail` along `prev`. -/
def iterNextBack {α : Type} (m : Mem α) (it : IterRec) : IterRec :=
  if it.length = 0 then it
  else
    match it.tail with
    | none => it
    | some t =>
      match m.nodes t with
      | none => it
      | some node => { it with length := it.length - 1, tail := node.prev }

/-- Runs a state step `k` times (the host `for` loops of `splitOff` and
`remove`). -/
def iterateN {β : Type} (f : β → β) : Nat → β → β
  | 0, b => b
  | k + 1, b => iterateN f k (f b)

/-- `splitOffAfterNode(list, splitNode, at)`: when a split node exists,
detaches the suffix into a freshly allocated list object (clearing only
the suffix head backlink) and truncates the receiver to `tail :=
splitNode`, `length := at`; when it is absent, returns the receiver
itself. Returns the index of the returned list object. -/
def splitOffAfterNode {α : Type} (m : Mem α) (l : Nat) (r : ListRec)
    (splitNode : Option Nat) (atIdx : Int) : Except String (Nat × Mem α) :=
  match splitNode with
  | some sn =>
    match m.nodes sn with
    | none => Except.error ("model: dangling split node")
    | some snode =>
      let secondPartHead := snode.next
      let step1 :=
        match secondPartHead with
        | some sh =>
          (modifyNode m sh (fun n => { n with prev := none }), r.tail)
        | none => (m, (none : Option Nat))
      let newId := step1.1.listsSize
      let m2 : Mem α :=
        { step1.1 with
          lists :=
            upd step1.1.lists newId
              (some ⟨secondPartHead, step1.2, r.length - atIdx⟩),
          listsSize := newId + 1 }
      let m3 :=
        modifyList m2 l (fun s => { s with tail := some sn, length := atIdx })
      Except.ok (newId, m3)
  | none => Except.ok (l, m)

/-- `DoublyLinkedList.splitOff(at)`: bounds check, the two trivial
cases (`at === 0` returns the receiver itself, `at === len` returns a
fresh empty list), and otherwise a walk from the nearer end to find the
node before position `at`, handed to `splitOffAfterNode`. -/
def splitOff {α : Type} (m : Mem α) (l : Nat) (atIdx : Int) :
    Except String (Nat × Mem α) :=
  match m.lists l with
  | none => Except.error ("model: dangling list reference")
  | some r =>
    let len := r.length
    if ¬ atIdx ≤ len then
      Except.error ("Cannot split off at a nonexistent index")
    else if atIdx = 0 then Except.ok (l, m)
    else if atIdx = len then
      let p := newList m
      Except.ok (p.1, p.2)
    else
      let splitNode : Option Nat :=
        if atIdx - 1 ≤ len - 1 - (atIdx - 1) then
          (iterateN (iterNext m) (atIdx - 1).toNat (iterOfList r)).head
        else
          (iterateN (iterNextBack m) (len - 1 - (atIdx - 1)).toNat
              (iterOfList r)).tail
      splitOffAfterNode m l r splitNode atIdx

/-- The field block of a `Cursor` object: a logical index and the
current node reference (`none` is the ghost position). -/
structure CursorRec where
  idx : Int
  curr : Option Nat
deriving DecidableEq, Repr

/-- `DoublyLinkedList.cursorFront()`: index 0, no current node. -/
def cursorFront (_r : ListRec) : CursorRec :=
  ⟨0, none⟩

/-- `DoublyLinkedList.cursorBack()`: index `len - 1`, no current node. -/
def cursorBack (r : ListRec) : CursorRec :=
  ⟨r.length - 1, none⟩

/-- `Cursor.moveNext()`: from the ghost position enters at the list
head, otherwise follows the `next` reference. -/
def cursorMoveNext {α : Type} (m : Mem α) (l : Nat) (c : CursorRec) :
    CursorRec :=
  match c.curr with
  | none =>
    ⟨0,
      match m.lists l with
      | some r => r.head
      | none => none⟩
  | some i =>
    ⟨c.idx + 1,
      match m.nodes i with
      | some n => n.next
      | none => none⟩

/-- `Cursor.movePrev()`: from the ghost position enters at the list
tail, otherwise follows the `prev` reference. -/
def cursorMovePrev {α : Type} (m : Mem α) (l : Nat) (c : CursorRec) :
    CursorRec :=
  match c.curr with
  | none =>
    match m.lists l with
    | some r => ⟨r.length - 1, r.tail⟩
    | none => ⟨-1, none⟩
  | some i =>
    ⟨c.idx - 1,
      match m.nodes i with
      | some n => n.prev
      | none => none⟩

/-- `Cursor.removeCurrent()`: on the ghost position returns null and
changes nothing; otherwise unlinks the current node, advances the cursor
to its former successor, and returns the removed element. -/
def cursorRemoveCurrent {α : Type} (m : Mem α) (l : Nat) (c : CursorRec) :
    Option α × CursorRec × Mem α :=
  match c.curr with
  | none => (none, c, m)
  | some i =>
    match m.nodes i with
    | none => (none, c, m)
    | some node =>
      (some node.element, ⟨c.idx, node.next⟩, unlinkNode m l i)

/-- `DoublyLinkedList.remove(at)`: bounds check, then a cursor walk of
`at` steps from `cursorFront()` or `len - at - 1` steps from
`cursorBack()` (whichever is fewer), ending in `removeCurrent()`. The
returned option is the value of `cursor.removeCurrent()!`. -/
def removeAt {α : Type} (m : Mem α) (l : Nat) (atIdx : Int) :
    Except String (Option α × Mem α) :=
  match m.lists l with
  | none => Except.error ("model: dangling list reference")
  | some r =>
    if ¬ atIdx < r.length then
      Except.error ("Cannot remove at an index outside of the list bounds")
    else
      let offsetFromEnd := r.length - atIdx - 1
      if atIdx ≤ offsetFromEnd then
        let c :=
          iterateN (cursorMoveNext m l) atIdx.toNat (cursorFront r)
        let p := cursorRemoveCurrent m l c
        Except.ok (p.1, p.2.2)
      else
        let c :=
          iterateN (cursorMovePrev m l) offsetFromEnd.toNat (cursorBack r)
        let p := cursorRemoveCurrent m l c
        Except.ok (p.1, p.2.2)

/-- The heap of the concrete counterexample runs: a fresh list (index 0)
holding the numbers 1 and 2 at nodes 0 and 1. -/
def memOneTwo : Mem Int :=
  pushBack (pushBack (newList (emptyMem Int)).2 0 1) 0 2

/-- The heap holding a single one-element list (index 0, element 1). -/
def memOne : Mem Int :=
  pushBack (newList (emptyMem Int)).2 0 1

/-- The heap holding one list (index 0) with elements 10, 20, 30. -/
def memTen : Mem Int :=
  pushBack (pushBack (pushBack (newList (emptyMem Int)).2 0 10) 0 20) 0 30

/-- The receiver heap after `splitOff(1)` on the two-element list of
`memOneTwo` (falling back to the input heap on an error, which the run
does not take). -/
def memSplit : Mem Int :=
  match splitOff memOneTwo 0 1 with
  | Except.ok p => p.2
  | Except.error _ => memOneTwo

/-- Observation helper: the element returned by a `remove(at)` call
(`none` both for a thrown bounds error and for a null return). -/
def removedElem {α : Type} (e : Except String (Option α × Mem α)) :
    Option α :=
  match e with
  | Except.ok p => p.1
  | Except.error _ => none

/-!
Theorems. The helper lemmas come first; each claim is then settled by
its named theorem (with a counterexample theorem and a witness theorem
where called for).
-/

/-- The body of the `fold` loop leaves the loop condition untouched, so
once the pulled item is present the loop never exits, whatever the
fuel. -/
theorem foldLoop_some_eq_none {α β : Type} (f : β → α → β) (x : α) :
    ∀ (fuel : Nat) (acc : β), foldLoop f fuel acc (some x) = none := by
  intro fuel
  induction fuel with
  | zero => intro acc; rfl
  | succ k ih => intro acc; simpa [foldLoop] using ih (f acc x)

/-- A `fold` whose source yields at least one item never returns. -/
theorem crabFold_some_eq_none {σ α β : Type} (it : IterSpec σ α) (s : σ)
    (x : α) (h : (it.next s).1 = some x) (init : β) (f : β → α → β) :
    ∀ fuel : Nat, crabFold it s init f fuel = none := by
  intro fuel
  simp [crabFold, h, foldLoop_some_eq_none]

/-- Claim C1: on the canonical iterator base the terminal operations do
not terminate on any non-empty source: for the one-element source
`[42]`, both `count()` and a `fold` run out of any amount of fuel,
because the `while` loop of `fold` never pulls a second item. -/
theorem C1_fold_count_diverge :
    ∀ fuel : Nat,
      crabCount listIterI [42] fuel = none ∧
      crabFold listIterI [42] (0 : Int) (fun acc x => acc + x) fuel = none := by
  intro fuel
  constructor
  · exact crabFold_some_eq_none listIterI [42] 42 rfl 0 _ fuel
  · exact crabFold_some_eq_none listIterI [42] 42 rfl 0 _ fuel

/-- Claim C2: with sources `a = [1]` and `b = [2]`, the very first
`Chain.next()` call pulls the item of `b` (its state advances from `[2]`
to `[]`) while `a` is not yet exhausted, discards it, and the second
call returns `none`: the chain yields only `[1]`, not the items of `a`
followed by those of `b`. -/
theorem C2_chain_eager_or :
    chainNext listIterI listIterI ⟨[1], [2]⟩ = (some 1, ⟨[], []⟩) ∧
    chainNext listIterI listIterI ⟨[], []⟩ = (none, ⟨[], []⟩) :=
  ⟨rfl, rfl⟩

/-- Claim C5: constructing `Zip` over the sources `[1]` and `[2]`
invokes `count()` on the first upstream, which never returns (it exceeds
every amount of fuel), so construction both consumes upstream items and
fails to terminate — it is not lazy. -/
theorem C5_zip_constructor_consumes :
    ∀ fuel : Nat, zipNew listIterI listIterI [1] [2] fuel = none := by
  intro fuel
  unfold zipNew
  rw [show crabCount listIterI [1] fuel = none from
    crabFold_some_eq_none listIterI [1] 1 rfl 0 _ fuel]

/-- Claim C6 counterexample: scanning `[1, 2]` with a closure that
rejects `1`, the first `next()` returns `none`, yet the second `next()`
pulls the upstream again (its state advances from `[2]` to `[]`) and
returns `some 2` — there is no permanent latch. -/
theorem C6_counterexample :
    scanNext listIterI scanF ⟨[1, 2], 0⟩ = (none, ⟨[2], 0⟩) ∧
    scanNext listIterI scanF ⟨[2], 0⟩ = (some 2, ⟨[], 2⟩) :=
  ⟨rfl, rfl⟩

/-- Claim C6 (amended): the Scan adapter keeps no flag: a call made
after `f` returned Absent behaves like any other call — whenever the
upstream yields an item on which `f` is Present, the adapter yields that
output (it returns Absent permanently only once the upstream does). -/
theorem C6_scan_no_latch {σ α τ : Type} (it : IterSpec σ α)
    (f : τ → α → Option τ) (c : ScanState σ τ) (x : α) (b : τ)
    (h1 : (it.next c.s).1 = some x) (h2 : f c.state x = some b) :
    scanNext it f c = (some b, ⟨(it.next c.s).2, b⟩) := by
  simp [scanNext, h1, h2]

/-- Claim C6 witness: the post-rejection state of the counterexample run
satisfies the amended theorem concretely. -/
theorem C6_witness :
    (listIterI.next (ScanState.mk [2] (0 : Int)).s).1 = some 2 ∧
    scanF (ScanState.mk [2] (0 : Int)).state 2 = some 2 ∧
    scanNext listIterI scanF ⟨[2], 0⟩ =
      (some 2, ⟨(listIterI.next (ScanState.mk [2] (0 : Int)).s).2, 2⟩) :=
  ⟨rfl, rfl, C6_scan_no_latch listIterI scanF ⟨[2], 0⟩ 2 2 rfl rfl⟩

/-- A point update read back at the written index. -/
theorem upd_self {β : Type} (f : Nat → Option β) (i : Nat) (v : Option β) :
    upd f i v i = v := by
  simp [upd]

/-- Mutating a node leaves the list arena unchanged. -/
theorem modifyNode_lists {α : Type} (m : Mem α) (i : Nat)
    (f : NodeRec α → NodeRec α) : (modifyNode m i f).lists = m.lists := by
  unfold modifyNode
  cases m.nodes i <;> rfl

/-- Mutating a list object leaves the node arena unchanged. -/
theorem modifyList_nodes {α : Type} (m : Mem α) (l : Nat)
    (f : ListRec → ListRec) : (modifyList m l f).nodes = m.nodes := by
  unfold modifyList
  cases m.lists l <;> rfl

/-- Reading back the mutated list object. -/
theorem modifyList_lists_self {α : Type} (m : Mem α) (l : Nat)
    (f : ListRec → ListRec) :
    (modifyList m l f).lists l = (m.lists l).map f := by
  unfold modifyList
  cases h : m.lists l
  · simp [h]
  · simp [h, upd]

/-- Reading back the mutated node. -/
theorem modifyNode_nodes_self {α : Type} (m : Mem α) (i : Nat)
    (f : NodeRec α → NodeRec α) :
    (modifyNode m i f).nodes i = (m.nodes i).map f := by
  unfold modifyNode
  cases h : m.nodes i
  · simp [h]
  · simp [h, upd]

/-- Reading an unrelated node past a node mutation. -/
theorem modifyNode_nodes_ne {α : Type} (m : Mem α) (i j : Nat)
    (f : NodeRec α → NodeRec α) (h : j ≠ i) :
    (modifyNode m i f).nodes j = m.nodes j := by
  unfold modifyNode
  cases m.nodes i
  · rfl
  · simp [upd, h]

/-- Effect of `pushBack` on the receiving list object and the fresh
node: the list gains the fresh node as tail with length one higher, and
the fresh node stores the pushed element with its `prev` at the old
tail. -/
theorem pushBack_spec {α : Type} (m : Mem α) (l : Nat) (x : α) (r : ListRec)
    (h : m.lists l = some r) :
    ∃ nxt : Option Nat,
      (pushBack m l x).lists l =
        some
          ⟨(match r.tail with
            | none => some m.nodesSize
            | some _ => r.head), some m.nodesSize, r.length + 1⟩ ∧
      (pushBack m l x).nodes m.nodesSize = some ⟨nxt, r.tail, x⟩ := by
  unfold pushBack allocNode pushBackNode
  dsimp only
  rw [h]
  cases hrt : r.tail with
  | none =>
    simp only [hrt]
    refine ⟨none, ?_, ?_⟩
    · simp [modifyList_lists_self, modifyNode_lists, h]
    · simp [modifyList_nodes, modifyNode_nodes_self, upd_self]
  | some t =>
    simp only [hrt]
    by_cases htn : t = m.nodesSize
    · subst htn
      refine ⟨some m.nodesSize, ?_, ?_⟩
      · simp [modifyList_lists_self, modifyNode_lists, h]
      · simp [modifyList_nodes, modifyNode_nodes_self, upd_self]
    · refine ⟨none, ?_, ?_⟩
      · simp [modifyList_lists_self, modifyNode_lists, h]
      · simp [modifyList_nodes,
          modifyNode_nodes_ne _ _ _ _ (Ne.symm htn),
          modifyNode_nodes_self, upd_self]

/-- Effect of `popBack` on a list whose tail node is known: the tail
node's element comes back and the list record retreats to that node's
`prev` with length one lower. -/
theorem popBack_spec {α : Type} (M : Mem α) (l j : Nat) (r2 : ListRec)
    (node : NodeRec α) (hl : M.lists l = some r2) (ht : r2.tail = some j)
    (hn : M.nodes j = some node) :
    (popBack M l).1 = some node.element ∧
    (popBack M l).2.lists l =
      some
        ⟨(match node.prev with
          | none => none
          | some _ => r2.head), node.prev, r2.length - 1⟩ := by
  unfold popBack popBackNode
  dsimp only
  simp only [hl]
  simp only [ht]
  simp only [hn]
  cases hp : node.prev with
  | none =>
    simp only [hp]
    constructor
    · rfl
    · simp [modifyList_lists_self, hl]
  | some p =>
    simp only [hp]
    constructor
    · rfl
    · simp [modifyList_lists_self, modifyNode_lists, hl]

/-- Claim C7: pushing an element on the back of any list and popping the
back again returns exactly that element, and the list record ends with
its prior length and prior tail. -/
theorem C7_push_pop_roundtrip {α : Type} (m : Mem α) (l : Nat) (x : α)
    (r : ListRec) (h : m.lists l = some r) :
    (popBack (pushBack m l x) l).1 = some x ∧
    ((popBack (pushBack m l x) l).2.lists l).map ListRec.length =
      some r.length ∧
    ((popBack (pushBack m l x) l).2.lists l).map ListRec.tail =
      some r.tail := by
  obtain ⟨nxt, hlists, hnode⟩ := pushBack_spec m l x r h
  obtain ⟨h1, h2⟩ :=
    popBack_spec (pushBack m l x) l m.nodesSize _ _ hlists rfl hnode
  refine ⟨h1, ?_, ?_⟩
  · rw [h2]
    simp
  · rw [h2]
    simp

/-- Claim C7 witness: the round-trip through `pushBack(7)` on the
concrete two-element list. -/
theorem C7_witness :
    memOneTwo.lists 0 = some ⟨some 0, some 1, 2⟩ ∧
    ((popBack (pushBack memOneTwo 0 7) 0).1 = some 7 ∧
      ((popBack (pushBack memOneTwo 0 7) 0).2.lists 0).map ListRec.length =
        some (2 : Int) ∧
      ((popBack (pushBack memOneTwo 0 7) 0).2.lists 0).map ListRec.tail =
        some (some 1)) :=
  ⟨rfl, C7_push_pop_roundtrip memOneTwo 0 7 ⟨some 0, some 1, 2⟩ rfl⟩

/-- Claim C3: `splitOff(0)` on the one-element list returns the receiver
itself — the same list object (index 0) in an unchanged heap — so the
returned list is not distinct from the receiver and the receiver keeps
its single element instead of being left with the empty prefix. -/
theorem C3_splitOff_zero_aliases :
    splitOff memOne 0 0 = Except.ok (0, memOne) ∧
    lengthOf memOne 0 = 1 ∧
    elemsAlong memOne (chainFrom memOne 10 (headOf memOne 0)) = [1] :=
  ⟨rfl, rfl, rfl⟩

/-- Claim C4: `remove(0)` on the list `[1, 2]` returns null and leaves
the heap untouched (the cursor walk starts at the ghost position, so
zero `moveNext` calls leave no current node), and `remove(1)` on
`[10, 20, 30]` returns the element `10` at position 0, one short of the
requested position. -/
theorem C4_remove_off_by_one :
    removeAt memOneTwo 0 0 = Except.ok (none, memOneTwo) ∧
    removedElem (removeAt memTen 0 1) = some 10 :=
  ⟨rfl, rfl⟩

/-- Claim C8: after `pushBack(1); pushBack(2); splitOff(1)` the receiver
records length 1, but following `next` pointers from its head reaches
two nodes (indices 0 and 1), because `splitOff` never clears the split
node's `next` reference. -/
theorem C8_splitOff_breaks_reachability :
    lengthOf memSplit 0 = 1 ∧
    chainFrom memSplit 10 (headOf memSplit 0) = [0, 1] ∧
    tailOf memSplit 0 = some 0 :=
  ⟨rfl, rfl, rfl⟩

/-- The `Some` factory characterized: it throws exactly on a nullish
argument and otherwise wraps it. -/
theorem SomeF_eq (v : JSVal) :
    SomeF v =
      if nullish v then
        Except.error ("Tried to create Some() with a null or undefined value.")
      else Except.ok ⟨v⟩ := by
  cases v <;> rfl

/-- The wrapped value of an option is nullish exactly when the option is
absent. -/
theorem nullish_eq_not_isSome (o : OptionJS) :
    nullish o.value = !o.isSome := by
  obtain ⟨v⟩ := o
  cases v <;> rfl

/-- Claim C9 counterexample: `unwrap`/`expect` are not the only raising
operations — `transpose()` on the present option wrapping the plain
number 5 (not a Result) throws, and `unzip()` on the present option
wrapping the array `[null, 3]` throws through its unguarded `Some`
factory call. -/
theorem C9_counterexample :
    OptionJS.transpose ⟨JSVal.vnum 5⟩ =
      Except.error ("Value is not a Result") ∧
    OptionJS.unzip ⟨JSVal.vpair JSVal.vnull (JSVal.vnum 3)⟩ =
      Except.error
        ("Tried to create Some() with a null or undefined value.") :=
  ⟨rfl, rfl⟩

/-- Claim C9 (amended): the raising behavior of the Option class,
operation by operation — `expect` and `unwrap` raise exactly when the
receiver is Absent; `transpose` raises exactly when the receiver is
Present and the wrapped value is not a Result; `unzip` raises exactly
when the receiver is Present wrapping a two-element array with a
`null`/`undefined` component; and the operations that guard their
internal `Some` factory calls — `map`, `take`, `replace`, `zip` — never
raise, for every receiver and every value argument. -/
theorem C9_raise_characterization (o other : OptionJS) (msg : String)
    (f : JSVal → JSVal) (v : JSVal) :
    exIsOk (o.expect msg) = o.isSome ∧
    exIsOk o.unwrap = o.isSome ∧
    exIsOk o.transpose = (!o.isSome || isResultLike o.value) ∧
    exIsOk o.unzip = !(o.isSome && pairNullish o.value) ∧
    exIsOk (o.map f) = true ∧
    exIsOk o.take = true ∧
    exIsOk (o.replace v) = true ∧
    exIsOk (o.zip other) = true := by
  refine ⟨?_, ?_, ?_, ?_, ?_, ?_, ?_, ?_⟩
  · obtain ⟨w⟩ := o
    cases w <;> rfl
  · obtain ⟨w⟩ := o
    cases w <;> rfl
  · obtain ⟨w⟩ := o
    cases w
    case vres rv re =>
      by_cases hok : resIsOk rv <;>
        simp [OptionJS.transpose, OptionJS.isSome, isResultLike, exIsOk, hok]
    all_goals rfl
  · obtain ⟨w⟩ := o
    cases w
    case vpair a b =>
      by_cases ha : nullish a = true
      · simp [OptionJS.unzip, OptionJS.isSome, pairNullish, SomeF_eq, ha,
          exIsOk]
      · by_cases hb : nullish b = true <;>
          simp [OptionJS.unzip, OptionJS.isSome, pairNullish, SomeF_eq, ha,
            hb, exIsOk]
    all_goals rfl
  · by_cases h : o.isSome
    · by_cases hv : f o.value = JSVal.vnull ∨ f o.value = JSVal.vundef
      · simp [OptionJS.map, h, hv, exIsOk]
      · simp [OptionJS.map, SomeF, h, hv, exIsOk]
    · simp [OptionJS.map, h, exIsOk]
  · by_cases h : o.isSome
    · have hn : nullish o.value = false := by
        simp [nullish_eq_not_isSome, h]
      simp [OptionJS.take, h, SomeF_eq, hn, exIsOk]
    · simp [OptionJS.take, h, exIsOk]
  · by_cases hv : o.value = JSVal.vnull ∨ o.value = JSVal.vundef
    · simp [OptionJS.replace, hv, exIsOk]
    · simp [OptionJS.replace, SomeF, hv, exIsOk]
  · by_cases h : (o.isSome && other.isSome) = true
    · simp [OptionJS.zip, h, SomeF_eq, nullish, exIsOk]
    · simp [OptionJS.zip, h, exIsOk]

/-- Claim C10: for every host value other than `null` and `undefined` —
the falsy values included — the `Some` factory succeeds with an option
that is present, is not absent, and unwraps to exactly that value. -/
theorem C10_some_factory (v : JSVal) (h1 : v ≠ JSVal.vnull)
    (h2 : v ≠ JSVal.vundef) :
    SomeF v = Except.ok ⟨v⟩ ∧
    OptionJS.isSome ⟨v⟩ = true ∧
    OptionJS.isNone ⟨v⟩ = false ∧
    OptionJS.unwrap ⟨v⟩ = Except.ok v := by
  have hs : OptionJS.isSome ⟨v⟩ = true := by
    cases v <;> simp_all [OptionJS.isSome]
  refine ⟨?_, hs, ?_, ?_⟩
  · simp [SomeF, h1, h2]
  · simp [OptionJS.isNone, hs]
  · simp [OptionJS.unwrap, hs]

/-- Claim C10 witness: the factory round-trip at the falsy value
`false`. -/
theorem C10_witness :
    (JSVal.vbool false ≠ JSVal.vnull) ∧
    (JSVal.vbool false ≠ JSVal.vundef) ∧
    (SomeF (JSVal.vbool false) = Except.ok ⟨JSVal.vbool false⟩ ∧
      OptionJS.isSome ⟨JSVal.vbool false⟩ = true ∧
      OptionJS.isNone ⟨JSVal.vbool false⟩ = false ∧
      OptionJS.unwrap ⟨JSVal.vbool false⟩ = Except.ok (JSVal.vbool false)) :=
  ⟨by decide, by decide,
    C10_some_factory (JSVal.vbool false) (by decide) (by decide)⟩

end CrabTs
